import Mathlib

/-!
A verification development for the blackjack-trainer core engines.

The TypeScript sources are shallowly embedded:
* card / hand arithmetic and the dealer turn from `services/blackjackLogic.ts`,
* the dealer-outcome / EV solver from `services/evCalculator.ts`
  (JS floating-point numbers are modelled as exact rationals `ℚ`),
* the basic-strategy table from `services/strategyLogic.ts`,
* the true-count conversion from `services/countingService.ts`,
* the simulation state machine from `hooks/useSimulationGame.ts`
  (React `useState`/`useRef` cells become fields of a `SimGame` record and each
  handler becomes a state-to-state function; `setTimeout` pacing is collapsed,
  so a handler's result is the state after all its scheduled updates ran).

Randomness (`Math.random`) is made explicit: `shuffleDeck` takes the stream of
random draws as a function argument, and the mid-round reshuffles
(`shuffleDeck(createDeck(...))`) are abstracted as an explicitly passed
replacement deck `fresh`.
-/

namespace BJ

/-- The four suits (enum `Suit`). -/
inductive Suit where
  | hearts | diamonds | clubs | spades
deriving DecidableEq, Repr

/-- The thirteen ranks (enum `Rank`). -/
inductive Rank where
  | two | three | four | five | six | seven | eight | nine | ten
  | jack | queen | king | ace
deriving DecidableEq, Repr

/-- The `VALUES` table of `blackjackLogic.ts`: 2–10 at face value, J/Q/K = 10,
Ace = 11. -/
def rankValue : Rank → ℕ
  | .two => 2 | .three => 3 | .four => 4 | .five => 5 | .six => 6
  | .seven => 7 | .eight => 8 | .nine => 9
  | .ten => 10 | .jack => 10 | .queen => 10 | .king => 10
  | .ace => 11

/-- Interface `Card`: suit, rank, the stored numeric `value`, and the
optional `isHidden` flag (absent = `false`). -/
structure Card where
  suit : Suit
  rank : Rank
  value : ℕ
  isHidden : Bool := false
deriving DecidableEq, Repr

/-- Enum `Action`. -/
inductive Action where
  | hit | stand | double | split | surrender
deriving DecidableEq, Repr

/-- The hand categories returned by `getHandType` (`'HARD' | 'SOFT' | 'PAIR'`). -/
inductive HandType where
  | hard | soft | pair
deriving DecidableEq, Repr

/-- The `surrender` rule value `'none' | 'early' | 'late'`. -/
inductive SurrenderPolicy where
  | none | early | late
deriving DecidableEq, Repr

/-- Interface `GameRules`.  Money-valued fields (`blackjackPayout`,
`simMinBet`) are rationals; the optional booleans default to `false` as a
missing field is falsy in JS. -/
structure GameRules where
  deckCount : ℕ
  dealerHitSoft17 : Bool
  doubleAfterSplit : Bool
  surrender : SurrenderPolicy
  blackjackPayout : ℚ
  simMinBet : ℚ
  insuranceAllowed : Bool := false
  evenMoneyAllowed : Bool := false
deriving DecidableEq, Repr

/-- Interface `Hand`.  `bet` is a rational amount of money. -/
structure Hand where
  cards : List Card
  bet : ℚ
  isCompleted : Bool
  isBusted : Bool
  isBlackjack : Bool
  hasDoubled : Bool
  hasSurrendered : Bool
  canSplit : Bool
deriving DecidableEq, Repr

/-- Enum `SimState`. -/
inductive SimState where
  | setup | betting | dealing | insurance | playerTurn | dealerTurn | resolving
deriving DecidableEq, Repr

/-! ## Card and hand arithmetic (`services/blackjackLogic.ts`) -/

/-- A junk card standing in for JS `undefined`: reading past the end of an
array (e.g. `deck.pop()!` on an empty deck, `cards[0]` of an empty hand) is a
crash in the source and never happens on the inputs we reason about. -/
def undefinedCard : Card := ⟨Suit.spades, Rank.two, 0, false⟩

/-- `cards[i]` array indexing. -/
def cardAt (cards : List Card) (i : ℕ) : Card := (cards.get? i).getD undefinedCard

/-- `createDeck(deckCount)`: `deckCount` copies of the 52 (suit, rank) pairs,
each card carrying `VALUES[rank]` and no hidden flag. -/
def createDeck (deckCount : ℕ) : List Card :=
  ((List.range deckCount).map (fun _ =>
    ([Suit.hearts, Suit.diamonds, Suit.clubs, Suit.spades].map (fun s =>
      ([Rank.two, Rank.three, Rank.four, Rank.five, Rank.six, Rank.seven,
        Rank.eight, Rank.nine, Rank.ten, Rank.jack, Rank.queen, Rank.king,
        Rank.ace].map (fun r => ({ suit := s, rank := r, value := rankValue r } : Card))))).flatten)).flatten

/-- JS `Math.round`: round to the nearest integer, halves toward `+∞`. -/
def jsRound (q : ℚ) : ℤ := ⌊q + 1/2⌋

/-- `Math.floor(Math.random() * (i + 1))` for one loop step of the
Fisher–Yates shuffle, where `r` is the value `Math.random()` returned. -/
def randIndex (r : ℚ) (i : ℕ) : ℕ := (⌊r * (i + 1)⌋).toNat

/-- The JS swap `[a[i], a[j]] = [a[j], a[i]]`: both reads happen before both
writes.  Out-of-range indices leave the list unchanged (they cannot occur for
`Math.random()` outcomes in `[0, 1)`). -/
def swapAt (l : List Card) (i j : ℕ) : List Card :=
  match l[i]?, l[j]? with
  | some a, some b => (l.set i b).set j a
  | _, _ => l

/-- The Fisher–Yates loop of `shuffleDeck`, from index `i` down to `1`;
`rand i` is the `Math.random()` outcome used at index `i`. -/
def shuffleLoop (rand : ℕ → ℚ) (l : List Card) : ℕ → List Card
  | 0 => l
  | i + 1 => shuffleLoop rand (swapAt l (i + 1) (randIndex (rand (i + 1)) (i + 1))) i

/-- `shuffleDeck(deck)`: copy the array, then Fisher–Yates from the last index
down to `1`.  The embedding is pure, so the input list is untouched by
construction (the source copies with `[...deck]` before swapping). -/
def shuffleDeck (rand : ℕ → ℚ) (deck : List Card) : List Card :=
  shuffleLoop rand deck (deck.length - 1)

/-- The visible cards of a hand: both loops in `calculateHandValue` and
`isSoftHand` skip cards with `isHidden` set. -/
def visibleCards (cards : List Card) : List Card := cards.filter (fun c => !c.isHidden)

/-- The accumulated `value` of the visible cards, Aces counted as 11 (their
stored `value`). -/
def rawValue (cards : List Card) : ℕ :=
  (visibleCards cards).foldl (fun acc c => acc + c.value) 0

/-- The number of visible Aces. -/
def visibleAces (cards : List Card) : ℕ :=
  (visibleCards cards).countP (fun c => c.rank == Rank.ace)

/-- The `while (value > 21 && aces > 0)` reduction loop: subtract 10 per Ace
while the total exceeds 21. -/
def reduceAces (v : ℕ) : ℕ → ℕ
  | 0 => v
  | a + 1 => if 21 < v then reduceAces (v - 10) a else v

/-- `calculateHandValue(cards)`: sum the visible cards (Aces as 11), then
reduce by 10 per Ace while over 21. -/
def calculateHandValue (cards : List Card) : ℕ :=
  reduceAces (rawValue cards) (visibleAces cards)

/-- `isSoftHand(cards)`: the source computes the UNREDUCED visible sum
`value` (Aces already as 11) and returns
`aces > 0 && value <= 21 && (value + 10 > 21 ? false : true)`. -/
def isSoftHand (cards : List Card) : Bool :=
  decide (0 < visibleAces cards) && decide (rawValue cards ≤ 21) &&
    (if 21 < rawValue cards + 10 then false else true)

/-- The minimum possible sum used by `getHandType`: every card at face
`value` except Aces at 1.  This loop does NOT skip hidden cards. -/
def minSum (cards : List Card) : ℕ :=
  cards.foldl (fun acc c => acc + (if c.rank = Rank.ace then 1 else c.value)) 0

/-- `getHandType(cards)`: PAIR iff exactly two cards of equal rank, else SOFT
iff the reduced total differs from the minimum sum, else HARD. -/
def getHandType (cards : List Card) : HandType :=
  if cards.length = 2 ∧ (cardAt cards 0).rank = (cardAt cards 1).rank then .pair
  else if calculateHandValue cards ≠ minSum cards then .soft
  else .hard

/-- `createHand(bet)`. -/
def createHand (bet : ℚ) : Hand :=
  { cards := [], bet := bet, isCompleted := false, isBusted := false,
    isBlackjack := false, hasDoubled := false, hasSurrendered := false,
    canSplit := false }

/-- JS `array.pop()`: remove and return the LAST element. -/
def popCard (d : List Card) : Option (Card × List Card) :=
  match d.getLast? with
  | some c => some (c, d.dropLast)
  | _ => Option.none

/-- `array.pop()!` where the source asserts non-emptiness; an empty array
yields the `undefined` stand-in and leaves the list unchanged. -/
def popCardD (d : List Card) : Card × List Card :=
  match popCard d with
  | some p => p
  | _ => (undefinedCard, d)

/-- The dealer drawing loop of `playDealerTurn`: draw while the total is
below 17, or equals 17 with `isSoftHand` true under H17; stop on 17+ or bust.
`fresh` is the replacement deck the source would obtain from
`shuffleDeck(createDeck(rules.deckCount))` when the running deck empties (a
single replacement suffices for every execution we reason about; if both
decks are exhausted the source would push `undefined`, which we model by
standing). -/
def dealerLoop (cards : List Card) (deck fresh : List Card) (rules : GameRules) :
    List Card × List Card :=
  let val := calculateHandValue cards
  let soft := isSoftHand cards
  if 21 < val then (cards, deck)
  else if val < 17 ∨ (val = 17 ∧ soft = true ∧ rules.dealerHitSoft17 = true) then
    match hpop : popCard deck with
    | some (c, deck') => dealerLoop (cards ++ [c]) deck' fresh rules
    | Option.none =>
      match hpop2 : popCard fresh with
      | some (c, fresh') => dealerLoop (cards ++ [c]) fresh' [] rules
      | Option.none => (cards, deck)
  else (cards, deck)
termination_by deck.length + fresh.length
decreasing_by
  · cases hg : deck.getLast? with
    | none => simp [popCard, hg] at hpop
    | some x =>
      simp [popCard, hg] at hpop
      have hne : deck ≠ [] := by
        intro h0
        subst h0
        simp at hg
      have hlen := List.length_dropLast deck
      have hpos : deck.length ≠ 0 := by
        simpa [List.length_eq_zero] using hne
      obtain ⟨-, rfl⟩ := hpop
      omega
  · cases hg : fresh.getLast? with
    | none => simp [popCard, hg] at hpop2
    | some x =>
      simp [popCard, hg] at hpop2
      have hne : fresh ≠ [] := by
        intro h0
        subst h0
        simp at hg
      have hlen := List.length_dropLast fresh
      have hpos : fresh.length ≠ 0 := by
        simpa [List.length_eq_zero] using hne
      obtain ⟨-, rfl⟩ := hpop2
      rw [hlen]
      simp only [List.length_nil, Nat.add_zero]
      omega

/-- `playDealerTurn(deck, dealerHand, rules)`: reveal the hole card, then run
the dealer drawing loop; returns `{updatedDeck, finalHand}` as a pair. -/
def playDealerTurn (deck fresh : List Card) (dealerHand : Hand) (rules : GameRules) :
    List Card × Hand :=
  let cards0 := dealerHand.cards.map (fun c => { c with isHidden := false })
  let r := dealerLoop cards0 deck fresh rules
  (r.2, { dealerHand with cards := r.1 })

/-! ## Dealer-outcome distribution and EV solver (`services/evCalculator.ts`)

JS numbers are modelled as exact rationals.  The module-level memo caches
(`dealerCache`, `playerCache`) are pure-result memoization — they are cleared
by `clearEVCache()` at the start of every `calculateAllActionEVs` call and
within one call an entry always equals the value that would be recomputed —
so the embedding simply recomputes. -/

/-- Interface `DealerDist`: mass on each terminal dealer outcome. -/
structure DealerDist where
  p17 : ℚ
  p18 : ℚ
  p19 : ℚ
  p20 : ℚ
  p21 : ℚ
  bust : ℚ
  bj : ℚ
deriving DecidableEq, Repr

/-- The all-zero distribution (`{17: 0, ..., bj: 0}` before accumulation). -/
def zeroDist : DealerDist := ⟨0, 0, 0, 0, 0, 0, 0⟩

/-- Componentwise sum of two distributions. -/
def addDist (a b : DealerDist) : DealerDist :=
  ⟨a.p17 + b.p17, a.p18 + b.p18, a.p19 + b.p19, a.p20 + b.p20, a.p21 + b.p21,
   a.bust + b.bust, a.bj + b.bj⟩

/-- Componentwise scaling (`p * subDist[...]` accumulation). -/
def scaleDist (p : ℚ) (d : DealerDist) : DealerDist :=
  ⟨p * d.p17, p * d.p18, p * d.p19, p * d.p20, p * d.p21, p * d.bust, p * d.bj⟩

/-- Accumulating a list of weighted child distributions. -/
def sumDists (l : List DealerDist) : DealerDist := l.foldr addDist zeroDist

/-- Total mass of a distribution (the seven outcome masses). -/
def distTotal (d : DealerDist) : ℚ :=
  d.p17 + d.p18 + d.p19 + d.p20 + d.p21 + d.bust + d.bj

/-- `PROB_CARD`: infinite-deck draw probabilities, 1/13 for 2–9 and Ace,
4/13 for the ten-value group. -/
def probCard (val : ℕ) : ℚ :=
  if 2 ≤ val ∧ val ≤ 9 then 1/13
  else if val = 10 then 4/13
  else if val = 11 then 1/13
  else 0

/-- The ten drawable card values `[2, ..., 10, 11]` iterated by the solver. -/
def cardValues : List ℕ := [2, 3, 4, 5, 6, 7, 8, 9, 10, 11]

/-- The next running total after drawing a card of value `c`: an Ace makes
the hand soft, and a soft total over 21 is reduced by 10 and hardened. -/
def hitNextVal (v : ℕ) (soft : Bool) (c : ℕ) : ℕ :=
  let ns := soft || (c == 11)
  let nv := v + c
  if 21 < nv ∧ ns = true then nv - 10 else nv

/-- The softness flag going with `hitNextVal`. -/
def hitNextSoft (v : ℕ) (soft : Bool) (c : ℕ) : Bool :=
  let ns := soft || (c == 11)
  let nv := v + c
  if 21 < nv ∧ ns = true then false else ns

/-- Termination measure for the draw recursions: drawing always decreases it
(hard totals grow, soft totals either grow or harden to a total ≥ 12). -/
def hitMeasure (v : ℕ) (soft : Bool) : ℕ :=
  if soft = true then 43 - v else if v ≤ 10 then 65 - v else 22 - v

/-- The dealer stand/hit rule: hit below 17, hit soft 17 under H17, stand
otherwise (the `mustHit` computation of `getDealerOutcomeProbs`). -/
def dealerMustHit (v : ℕ) (soft : Bool) (rules : GameRules) : Bool :=
  if v < 17 then true
  else if v = 17 then soft && rules.dealerHitSoft17
  else false

/-- The terminal distribution when the dealer stands: mass 1 on the standing
total, except that a first-call 21 is flagged as a natural blackjack.  A
total outside 17–21 would write a junk object key in the source; that case is
unreachable because the dealer only stands on 17–21. -/
def standDist (v : ℕ) (first : Bool) : DealerDist :=
  if v = 21 ∧ first = true then { zeroDist with bj := 1 }
  else if v = 17 then { zeroDist with p17 := 1 }
  else if v = 18 then { zeroDist with p18 := 1 }
  else if v = 19 then { zeroDist with p19 := 1 }
  else if v = 20 then { zeroDist with p20 := 1 }
  else if v = 21 then { zeroDist with p21 := 1 }
  else zeroDist

/-- `getDealerOutcomeProbs(currentVal, isSoft, rules, isFirstCard)`: the
probability distribution of the dealer's final hand, by recursive expectation
over the forced draws (`List.attach` only carries the membership proofs used
for termination). -/
def getDealerOutcomeProbs (v : ℕ) (soft : Bool) (rules : GameRules) (first : Bool) :
    DealerDist :=
  if 21 < v then { zeroDist with bust := 1 }
  else if dealerMustHit v soft rules = true then
    sumDists (cardValues.attach.map (fun c =>
      scaleDist (probCard c.1)
        (getDealerOutcomeProbs (hitNextVal v soft c.1) (hitNextSoft v soft c.1) rules false)))
  else standDist v first
termination_by hitMeasure v soft
decreasing_by
  rename_i hv hhit
  have hc := c.2
  simp only [cardValues, List.mem_cons, List.not_mem_nil, or_false] at hc
  have hv21 : v ≤ 21 := by omega
  clear hhit
  rcases hc with hc | hc | hc | hc | hc | hc | hc | hc | hc | hc <;>
    rw [hc] <;> cases soft <;>
    simp [hitNextVal, hitNextSoft, hitMeasure] <;> split_ifs <;> omega

/-- `calculateStandEV(playerTotal, dealerDist)`: win on a dealer bust, then
compare against each standing dealer total. -/
def calculateStandEV (playerTotal : ℕ) (d : DealerDist) : ℚ :=
  if 21 < playerTotal then -1
  else
    let cmp : ℕ → ℚ → ℚ := fun t p =>
      if t < playerTotal then p else if playerTotal < t then -p else 0
    d.bust + cmp 17 d.p17 + cmp 18 d.p18 + cmp 19 d.p19 + cmp 20 d.p20 + cmp 21 d.p21

/-- `calculateHandMaxEV(total, isSoft, dealerDist, canDouble, canSplit,
rules)`: the best of standing and hitting from this state, recursively
(`canDouble`/`canSplit` are accepted and ignored exactly as in the source). -/
def calculateHandMaxEV (total : ℕ) (soft : Bool) (d : DealerDist)
    (canDouble canSplit : Bool) (rules : GameRules) : ℚ :=
  if 21 < total then -1
  else
    let evStand := calculateStandEV total d
    let evHit := (cardValues.attach.map (fun c =>
      probCard c.1 *
        calculateHandMaxEV (hitNextVal total soft c.1) (hitNextSoft total soft c.1)
          d false false rules)).sum
    max evStand evHit
termination_by hitMeasure total soft
decreasing_by
  rename_i hv
  have hc := c.2
  simp only [cardValues, List.mem_cons, List.not_mem_nil, or_false] at hc
  have hv21 : total ≤ 21 := by omega
  rcases hc with hc | hc | hc | hc | hc | hc | hc | hc | hc | hc <;>
    rw [hc] <;> cases soft <;>
    simp [hitNextVal, hitNextSoft, hitMeasure] <;> split_ifs <;> omega

/-- Interface `EVResult`. -/
structure EVResult where
  action : Action
  ev : ℚ
deriving DecidableEq, Repr

/-- The numeric value of one card of the split pair (`'J'/'Q'/'K'/'10'` → 10,
`'A'` → 11, else `parseInt` of the digit rank; `parseInt` of a non-numeric
rank would be `NaN`, which cannot occur after the previous checks and is
modelled as 0). -/
def pairCardValue (r : Rank) : ℕ :=
  if r = Rank.jack ∨ r = Rank.queen ∨ r = Rank.king ∨ r = Rank.ten then 10
  else if r = Rank.ace then 11
  else match r with
    | .two => 2 | .three => 3 | .four => 4 | .five => 5 | .six => 6
    | .seven => 7 | .eight => 8 | .nine => 9
    | _ => 0

/-- `calculateAllActionEVs(playerHandTotal, isSoft, isPair, pairRank,
dealerUpVal, rules)`: the per-action expected values, sorted descending by
EV.  JS `Array.prototype.sort` is stable, as is `List.mergeSort`, so sorting
with `b.ev ≤ a.ev` reproduces the comparator `(a, b) => b.ev - a.ev`. -/
def calculateAllActionEVs (playerHandTotal : ℕ) (isSoft : Bool) (isPair : Bool)
    (pairRank : Option Rank) (dealerUpVal : ℕ) (rules : GameRules) : List EVResult :=
  let dealerDist := getDealerOutcomeProbs dealerUpVal (dealerUpVal == 11) rules true
  let standR : EVResult := ⟨Action.stand, calculateStandEV playerHandTotal dealerDist⟩
  let evHit := (cardValues.map (fun c =>
    probCard c *
      calculateHandMaxEV (hitNextVal playerHandTotal isSoft c)
        (hitNextSoft playerHandTotal isSoft c) dealerDist false false rules)).sum
  let evDouble := (cardValues.map (fun c =>
    probCard c * calculateStandEV (hitNextVal playerHandTotal isSoft c) dealerDist)).sum
  let base := [standR, ⟨Action.hit, evHit⟩, ⟨Action.double, 2 * evDouble⟩]
  let withSurrender := base ++
    (if rules.surrender ≠ SurrenderPolicy.none then [⟨Action.surrender, -(1/2)⟩] else [])
  let results := withSurrender ++
    (match pairRank with
     | some pr =>
       if isPair then
         let cardVal := pairCardValue pr
         let singleHandEV := (cardValues.map (fun c =>
           let nextTotal := hitNextVal cardVal (cardVal == 11) c
           let nextSoft := hitNextSoft cardVal (cardVal == 11) c
           if pr = Rank.ace ∧ rules.doubleAfterSplit = false then
             probCard c * calculateStandEV nextTotal dealerDist
           else
             probCard c * calculateHandMaxEV nextTotal nextSoft dealerDist false false rules)).sum
         [⟨Action.split, 2 * singleHandEV⟩]
       else []
     | Option.none => [])
  results.mergeSort (fun a b => decide (b.ev ≤ a.ev))

/-! ## True-count conversion (`services/countingService.ts`) -/

/-- `calculateTrueCount(runningCount, decksRemaining)`: `0` when no decks
remain, else `Math.round(runningCount / decksRemaining)`. -/
def calculateTrueCount (runningCount : ℤ) (decksRemaining : ℚ) : ℤ :=
  if decksRemaining ≤ 0 then 0
  else jsRound ((runningCount : ℚ) / decksRemaining)

/-! ## Basic-strategy decision engine (`services/strategyLogic.ts`) -/

/-- The pair block of `getBasicStrategyAction`; `Option.none` models falling
through to the hard-total logic (a pair of 5s). -/
def pairDecision (pairRank : Rank) (c0value : ℕ) (dealerVal : ℕ)
    (das : Bool) : Option Action :=
  if pairRank = Rank.ace ∨ pairRank = Rank.eight then some Action.split
  else if c0value = 10 then some Action.stand
  else if pairRank = Rank.nine then
    if dealerVal = 7 ∨ dealerVal = 10 ∨ dealerVal = 11 then some Action.stand
    else some Action.split
  else if pairRank = Rank.seven then
    if dealerVal ≤ 7 then some Action.split else some Action.hit
  else if pairRank = Rank.six then
    if dealerVal ≤ 6 then some Action.split else some Action.hit
  else if pairRank = Rank.four then
    if das = true ∧ (dealerVal = 5 ∨ dealerVal = 6) then some Action.split
    else some Action.hit
  else if pairRank = Rank.two ∨ pairRank = Rank.three then
    if dealerVal ≤ 7 ∧ das = true then some Action.split
    else if dealerVal ≤ 3 ∧ das = false then some Action.hit
    else if dealerVal ≤ 7 then some Action.split
    else some Action.hit
  else Option.none

/-- The soft-total block of `getBasicStrategyAction`; `Option.none` models
falling through to the hard-total logic (soft totals below 13). -/
def softDecision (total : ℕ) (dealerVal : ℕ) (h17 : Bool) : Option Action :=
  if 20 ≤ total then some Action.stand
  else if total = 19 then
    if h17 = true ∧ dealerVal = 6 then some Action.double else some Action.stand
  else if total = 18 then
    if 2 ≤ dealerVal ∧ dealerVal ≤ 6 then some Action.double
    else if 9 ≤ dealerVal then some Action.hit
    else some Action.stand
  else if total = 17 then
    if 3 ≤ dealerVal ∧ dealerVal ≤ 6 then some Action.double else some Action.hit
  else if total = 15 ∨ total = 16 then
    if 4 ≤ dealerVal ∧ dealerVal ≤ 6 then some Action.double else some Action.hit
  else if total = 13 ∨ total = 14 then
    if dealerVal = 5 ∨ dealerVal = 6 then some Action.double else some Action.hit
  else Option.none

/-- The hard-total tail of `getBasicStrategyAction` (the source's 11-branch
returns Double on both sides of its H17-vs-Ace test). -/
def hardDecision (total : ℕ) (dealerVal : ℕ) (h17 : Bool) : Action :=
  if 17 ≤ total then Action.stand
  else if total = 16 then (if 7 ≤ dealerVal then Action.hit else Action.stand)
  else if total = 15 then (if 7 ≤ dealerVal then Action.hit else Action.stand)
  else if total = 13 ∨ total = 14 then (if 7 ≤ dealerVal then Action.hit else Action.stand)
  else if total = 12 then (if 4 ≤ dealerVal ∧ dealerVal ≤ 6 then Action.stand else Action.hit)
  else if total = 11 then
    (if h17 = true ∧ dealerVal = 11 then Action.double else Action.double)
  else if total = 10 then (if 10 ≤ dealerVal then Action.hit else Action.double)
  else if total = 9 then (if 3 ≤ dealerVal ∧ dealerVal ≤ 6 then Action.double else Action.hit)
  else Action.hit

/-- `getBasicStrategyAction(hand, dealerUpCard, rules)`: surrender checks,
then the pair table, then soft totals, then hard totals (first match wins). -/
def getBasicStrategyAction (hand : Hand) (dealerUpCard : Card) (rules : GameRules) :
    Action :=
  let type := getHandType hand.cards
  let total := calculateHandValue hand.cards
  let dealerVal := dealerUpCard.value
  if rules.surrender ≠ SurrenderPolicy.none ∧ hand.cards.length = 2 ∧ type = HandType.hard ∧
      total = 16 ∧ (dealerVal = 9 ∨ dealerVal = 10 ∨ dealerVal = 11) then Action.surrender
  else if rules.surrender ≠ SurrenderPolicy.none ∧ hand.cards.length = 2 ∧
      type = HandType.hard ∧ total = 15 ∧ dealerVal = 10 then Action.surrender
  else
    match (if type = HandType.pair ∧ hand.cards.length = 2 then
            pairDecision (cardAt hand.cards 0).rank (cardAt hand.cards 0).value dealerVal
              rules.doubleAfterSplit
           else Option.none) with
    | some a => a
    | Option.none =>
      match (if type = HandType.soft then softDecision total dealerVal rules.dealerHitSoft17
             else Option.none) with
      | some a => a
      | Option.none => hardDecision total dealerVal rules.dealerHitSoft17

/-! ## Simulation state machine (`hooks/useSimulationGame.ts`)

The hook's `useState`/`useRef` cells are the fields of `SimGame`; `rules` and
`allInThreshold` (the hook's arguments) are passed to each transition
function.  The write-only statistics sinks `pendingSimStatsRef` and
`sessionAchievementsRef` (and the drawdown computed only to feed them) are
omitted: no game behaviour reads them. -/

/-- The `roundFlagsRef` record. -/
structure RoundFlags where
  hadBlackjack : Bool
  didAllIn : Bool
  splitUsed : Bool
  das : Bool
deriving DecidableEq, Repr

/-- The `roundResult` record `{delta, total}`. -/
structure RoundResult where
  delta : ℚ
  total : ℚ
deriving DecidableEq, Repr

/-- The simulation state held by `useSimulationGame`. -/
structure SimGame where
  gameState : SimState
  bankroll : ℚ
  initialBankroll : Option ℚ
  peakBankroll : Option ℚ
  deck : List Card
  roundStartBankroll : Option ℚ
  roundResult : Option RoundResult
  insuranceBet : ℚ
  insuranceOffered : Bool
  evenMoneyTaken : Bool
  playerHands : List Hand
  activeHandIndex : ℕ
  dealerHand : Hand
  roundFlags : RoundFlags
deriving DecidableEq, Repr

/-- Money rounding to cents: `Math.round(x * 100) / 100`. -/
def round2 (q : ℚ) : ℚ := (jsRound (q * 100) : ℚ) / 100

/-- Index-tracking helper for `revealHole`. -/
def revealHoleAux (idx : ℕ) : List Card → List Card
  | [] => []
  | c :: rest =>
    (if idx = 1 then { c with isHidden := false } else c) :: revealHoleAux (idx + 1) rest

/-- Revealing the hole card:
`cards.map((c, idx) => idx === 1 ? {...c, isHidden: false} : c)`. -/
def revealHole (cards : List Card) : List Card := revealHoleAux 0 cards

/-- Whether a hand is a natural for resolution purposes:
`calculateHandValue(h.cards) === 21 && h.cards.length === 2`. -/
def handIsBJ (h : Hand) : Bool :=
  decide (calculateHandValue h.cards = 21) && decide (h.cards.length = 2)

/-- The per-hand payout of the `hands.forEach` loop in `resolveRound`:
surrender refunds half, a bust pays nothing, naturals push against a dealer
natural (or pay double under even money), a natural wins `bet × (1 +
blackjackPayout)`, a dealer bust or a higher total pays double, an equal
total pushes, a lower total pays nothing. -/
def handPayoutSrc (evenMoney : Bool) (bjPayout : ℚ) (dVal : ℕ)
    (dBusted dHasBJ : Bool) (h : Hand) : ℚ :=
  let pVal := calculateHandValue h.cards
  let pHasBJ := handIsBJ h
  if h.hasSurrendered then h.bet * (1/2)
  else if h.isBusted then 0
  else if pHasBJ && dHasBJ then (if evenMoney then h.bet * 2 else h.bet)
  else if pHasBJ && !dHasBJ then (if evenMoney then h.bet * 2 else h.bet * (1 + bjPayout))
  else if dBusted then h.bet * 2
  else if dVal < pVal then h.bet * 2
  else if pVal = dVal then h.bet
  else 0

/-- `resolveRound(finalDealerHand?, handsOverride?)`: settle every player
hand plus the insurance side bet, update the bankroll and `roundResult`,
record the blackjack round flag, then (after the source's 2.5 s pause) clear
the per-round hand/insurance state and return to `Betting`. -/
def resolveRound (rules : GameRules) (g : SimGame) (finalDealerHand : Option Hand)
    (handsOverride : Option (List Hand)) : SimGame :=
  let dHand := finalDealerHand.getD g.dealerHand
  let hands := handsOverride.getD g.playerHands
  let dVal := calculateHandValue dHand.cards
  let dBusted := decide (21 < dVal)
  let dHasBJ := decide (dVal = 21) && decide (dHand.cards.length = 2)
  let payout := hands.foldl
    (fun acc h => acc + handPayoutSrc g.evenMoneyTaken rules.blackjackPayout dVal dBusted dHasBJ h) 0
  let payout := payout + (if 0 < g.insuranceBet ∧ dHasBJ = true then 3 * g.insuranceBet else 0)
  let flags := { g.roundFlags with
    hadBlackjack := g.roundFlags.hadBlackjack || hands.any handIsBJ }
  let totalBet := hands.foldl (fun acc h => acc + h.bet) 0
  let b := g.bankroll
  let newBank := b + payout
  let inferredStart := b + totalBet
  let delta := newBank - inferredStart
  { g with
    roundFlags := flags,
    bankroll := newBank,
    roundResult := some ⟨delta, newBank⟩,
    playerHands := [],
    dealerHand := createHand 0,
    insuranceBet := 0,
    insuranceOffered := false,
    evenMoneyTaken := false,
    gameState := SimState.betting }

/-- `getAllowedActions()`: no hand → nothing; a two-card 21 → Stand only;
otherwise Hit/Stand, plus Double on an untouched two-card hand with
sufficient bankroll, plus Split additionally requiring equal ranks, plus
Surrender on an untouched two-card hand when the rules allow it and no split
happened this round. -/
def getAllowedActions (rules : GameRules) (g : SimGame) : List Action :=
  match g.playerHands.get? g.activeHandIndex with
  | Option.none => []
  | some activeHand =>
    if activeHand.cards.length = 2 ∧ calculateHandValue activeHand.cards = 21 then
      [Action.stand]
    else
      ([Action.hit, Action.stand] ++
        (if activeHand.cards.length = 2 ∧ activeHand.bet ≤ g.bankroll then
          [Action.double] else []) ++
        (if activeHand.cards.length = 2 ∧
            (cardAt activeHand.cards 0).rank = (cardAt activeHand.cards 1).rank ∧
            activeHand.bet ≤ g.bankroll then
          [Action.split] else []) ++
        (if activeHand.cards.length = 2 ∧ rules.surrender ≠ SurrenderPolicy.none ∧
            g.roundFlags.splitUsed = false then
          [Action.surrender] else []))

/-- `placeBet(currentBet)`: reject a bet over the bankroll, otherwise deduct
it, deal two cards each (hole card hidden), and branch: dealer ten-value
upcard peeks for a natural, a dealer Ace offers insurance, an immediate
natural resolves the round, else play begins.  `fresh` stands for the
shuffled replacement shoe built when fewer than 15 cards remain.  Note that
`dBJ` is computed after the hole card was hidden, so it is always false (the
hidden card contributes nothing to `calculateHandValue`), faithfully to the
aliasing in the source. -/
def placeBet (rules : GameRules) (allInThreshold : ℚ) (fresh : List Card)
    (g : SimGame) (currentBet : ℚ) : SimGame :=
  if g.bankroll < currentBet then g
  else
    let preBet := g.bankroll
    let allIn := decide (0 < preBet) && decide (preBet ≤ currentBet) &&
      decide (allInThreshold ≤ preBet)
    let g : SimGame := { g with
      roundFlags := ⟨false, allIn, false, false⟩,
      roundStartBankroll := some preBet,
      roundResult := Option.none,
      insuranceBet := 0,
      insuranceOffered := false,
      evenMoneyTaken := false,
      bankroll := round2 (preBet - currentBet),
      gameState := SimState.dealing }
    let d0 := g.deck
    let d1 := if d0.length < 15 then fresh else d0
    let r1 := popCardD d1
    let p1 := r1.1
    let r2 := popCardD r1.2
    let dc1 := r2.1
    let r3 := popCardD r2.2
    let p2 := r3.1
    let r4 := popCardD r3.2
    let dc2 := { r4.1 with isHidden := true }
    let d := r4.2
    let pHand := { createHand currentBet with cards := [p1, p2] }
    let dHand := { createHand 0 with cards := [dc1, dc2] }
    let g : SimGame := { g with
      deck := d, playerHands := [pHand], activeHandIndex := 0, dealerHand := dHand }
    let dealerUpAce := rules.insuranceAllowed && (dc1.rank == Rank.ace)
    let pBJ := decide (calculateHandValue [p1, p2] = 21)
    let dBJ := decide (calculateHandValue [dc1, dc2] = 21)
    let dealerUp10 := dc1.value == 10
    if dealerUp10 = true ∧ dealerUpAce = false then
      let peekCards := revealHole dHand.cards
      let dHasBJ := decide (calculateHandValue peekCards = 21) && decide (peekCards.length = 2)
      if dHasBJ = true then
        let revealed := { dHand with cards := peekCards }
        resolveRound rules { g with dealerHand := revealed } (some revealed) (some [pHand])
      else { g with gameState := SimState.playerTurn }
    else if dealerUpAce = true then
      { g with
        insuranceOffered := true,
        insuranceBet := 0,
        evenMoneyTaken := false,
        gameState := SimState.insurance }
    else if pBJ = true ∨ dBJ = true then
      let revealed := { dHand with cards := revealHole dHand.cards }
      resolveRound rules { g with dealerHand := revealed } (some revealed) (some [pHand])
    else { g with gameState := SimState.playerTurn }

/-- `playDealer(handsToUse)`: reveal the hole card, run the dealer turn, then
resolve.  `deckForDealer` is the deck value captured by the handler's render
closure — the source reads the STALE `deck` state variable here, not the deck
updated earlier in the same `handleAction` call, and the embedding preserves
that. -/
def playDealer (rules : GameRules) (fresh : List Card) (deckForDealer : List Card)
    (g : SimGame) (handsToUse : List Hand) : SimGame :=
  let revealed := { g.dealerHand with cards := revealHole g.dealerHand.cards }
  let g : SimGame := { g with dealerHand := revealed }
  let r := playDealerTurn deckForDealer fresh revealed rules
  let g : SimGame := { g with deck := r.1, dealerHand := r.2 }
  resolveRound rules g (some r.2) (some handsToUse)

/-- `handleAction(action)`: apply the chosen action to the active hand, then
either advance to the next hand, reveal-and-resolve when every hand
surrendered or busted, or enter the dealer turn. -/
def handleAction (rules : GameRules) (allInThreshold : ℚ) (fresh : List Card)
    (g : SimGame) (action : Action) : SimGame :=
  match g.playerHands.get? g.activeHandIndex with
  | Option.none => g
  | some currentHand =>
    let deck0 := g.deck
    match action with
    | Action.split =>
      if g.bankroll < currentHand.bet then g
      else
        let g : SimGame := { g with
          bankroll := g.bankroll - currentHand.bet,
          roundFlags := { g.roundFlags with splitUsed := true } }
        let card1 := cardAt currentHand.cards 0
        let card2 := cardAt currentHand.cards 1
        let r1 := popCardD deck0
        let hand1 := { createHand currentHand.bet with cards := [card1, r1.1] }
        let r2 := popCardD r1.2
        let hand2 := { createHand currentHand.bet with cards := [card2, r2.1] }
        let updatedHands := g.playerHands.take g.activeHandIndex ++ [hand1, hand2] ++
          g.playerHands.drop (g.activeHandIndex + 1)
        { g with playerHands := updatedHands, deck := r2.2 }
    | _ =>
      let step :
          SimGame × Hand × List Card × Bool :=
        match action with
        | Action.hit =>
          let r := popCardD deck0
          let newHand := { currentHand with cards := currentHand.cards ++ [r.1] }
          if 21 < calculateHandValue newHand.cards then
            (g, { newHand with isBusted := true, isCompleted := true }, r.2, true)
          else (g, newHand, r.2, false)
        | Action.stand => (g, { currentHand with isCompleted := true }, deck0, true)
        | Action.double =>
          let g : SimGame := { g with bankroll := g.bankroll - currentHand.bet }
          let g : SimGame :=
            if g.roundFlags.splitUsed then
              { g with roundFlags := { g.roundFlags with das := true } }
            else g
          let r := popCardD deck0
          let cards := currentHand.cards ++ [r.1]
          let newHand := { currentHand with
            cards := cards, bet := currentHand.bet * 2, isCompleted := true,
            hasDoubled := true, isBusted := decide (21 < calculateHandValue cards) }
          (g, newHand, r.2, true)
        | _ =>
          (g, { currentHand with isCompleted := true, hasSurrendered := true }, deck0, true)
      if action = Action.double ∧ g.bankroll < currentHand.bet then g
      else
        let g := step.1
        let newHand := step.2.1
        let d := step.2.2.1
        let nextHand := step.2.2.2
        let updatedHands := g.playerHands.set g.activeHandIndex newHand
        let g : SimGame := { g with playerHands := updatedHands, deck := d }
        if nextHand then
          let allHandsDone := updatedHands.all (fun h => h.isCompleted)
          let onlySurrenderOrBust := allHandsDone &&
            updatedHands.all (fun h => h.hasSurrendered || h.isBusted)
          if onlySurrenderOrBust then
            let revealedDealer := { g.dealerHand with cards := revealHole g.dealerHand.cards }
            resolveRound rules { g with dealerHand := revealedDealer }
              (some revealedDealer) (some updatedHands)
          else if g.activeHandIndex < updatedHands.length - 1 then
            { g with activeHandIndex := g.activeHandIndex + 1 }
          else
            playDealer rules fresh deck0 { g with gameState := SimState.dealerTurn }
              updatedHands
        else g

/-! ## Specification-side definitions

These follow the wording of the specification, to be compared with the
definitions embedded from the source. -/

/-- The per-hand return exactly as the specification's `Resolving` step words
it: surrendered → half the bet back; busted → nothing; natural vs natural →
push (double under even money); natural vs no dealer natural → `bet × (1 +
blackjackPayoutRatio)` (double under even money); dealer bust or higher total
→ double; equal totals → push; lower → nothing. -/
def claimHandReturn (rules : GameRules) (evenMoney : Bool) (dealerHand : Hand)
    (h : Hand) : ℚ :=
  let dVal := calculateHandValue dealerHand.cards
  let dealerNatural := dVal = 21 ∧ dealerHand.cards.length = 2
  let pVal := calculateHandValue h.cards
  let playerNatural := pVal = 21 ∧ h.cards.length = 2
  if h.hasSurrendered then (1/2) * h.bet
  else if h.isBusted then 0
  else if playerNatural ∧ dealerNatural then (if evenMoney then 2 * h.bet else 1 * h.bet)
  else if playerNatural ∧ ¬dealerNatural then
    (if evenMoney then 2 * h.bet else h.bet * (1 + rules.blackjackPayout))
  else if 21 < dVal ∨ dVal < pVal then 2 * h.bet
  else if pVal = dVal then 1 * h.bet
  else 0

/-- The specification's total round payout: the sum of the per-hand returns,
plus `3 × insuranceBet` when insurance was bought and the dealer holds a
natural blackjack. -/
def claimRoundPayout (rules : GameRules) (evenMoney : Bool) (insuranceBet : ℚ)
    (dealerHand : Hand) (hands : List Hand) : ℚ :=
  (hands.map (claimHandReturn rules evenMoney dealerHand)).sum +
    (if 0 < insuranceBet ∧ calculateHandValue dealerHand.cards = 21 ∧
        dealerHand.cards.length = 2 then
      3 * insuranceBet
    else 0)

/-- Round half away from zero, the first policy named by the specification. -/
def roundHalfAwayFromZero (q : ℚ) : ℤ :=
  if 0 ≤ q then ⌊q + 1/2⌋ else -⌊-q + 1/2⌋

/-- Round half to even (banker's rounding), the second policy named by the
specification. -/
def roundHalfToEven (q : ℚ) : ℤ :=
  let f := ⌊q⌋
  if q - f < 1/2 then f
  else if 1/2 < q - f then f + 1
  else if Even f then f else f + 1

/-! ## Concrete cards, rules and states used as test inputs -/

/-- A freshly dealt (visible) card carrying its `VALUES` entry. -/
def mkCard (s : Suit) (r : Rank) : Card := ⟨s, r, rankValue r, false⟩

/-- The default rule set of the rules screen: 6 decks, H17, DAS, late
surrender, 3:2 blackjack, $5 minimum bet, insurance and even money offered. -/
def defaultRules : GameRules :=
  { deckCount := 6, dealerHitSoft17 := true, doubleAfterSplit := true,
    surrender := SurrenderPolicy.late, blackjackPayout := 3/2, simMinBet := 5,
    insuranceAllowed := true, evenMoneyAllowed := true }

/-- A betting-phase simulation state with bankroll 100 and the given deck. -/
def bettingState (deck : List Card) : SimGame :=
  { gameState := SimState.betting, bankroll := 100, initialBankroll := some 100,
    peakBankroll := some 100, deck := deck, roundStartBankroll := Option.none,
    roundResult := Option.none, insuranceBet := 0, insuranceOffered := false,
    evenMoneyTaken := false, playerHands := [], activeHandIndex := 0,
    dealerHand := createHand 0, roundFlags := ⟨false, false, false, false⟩ }

/-- A completed, untouched player hand 10♥ 9♠ with a $25 bet. -/
def handNineteen : Hand :=
  { createHand 25 with
    cards := [mkCard Suit.hearts Rank.ten, mkCard Suit.spades Rank.nine],
    isCompleted := true }

/-- A revealed dealer hand 10♦ 7♣ standing on 17. -/
def dealerSeventeen : Hand :=
  { createHand 0 with
    cards := [mkCard Suit.diamonds Rank.ten, mkCard Suit.clubs Rank.seven] }

/-- The simulation state just before resolving `handNineteen`: the $25 bet is
already deducted from the bankroll of 100. -/
def resolveExampleState : SimGame :=
  { bettingState [] with
    gameState := SimState.dealerTurn, bankroll := 75,
    roundStartBankroll := some 100, playerHands := [handNineteen],
    dealerHand := dealerSeventeen }

/-- A dealer hand of A♠ 6♦ — a soft 17. -/
def dealerSoft17 : Hand :=
  { createHand 0 with
    cards := [mkCard Suit.spades Rank.ace, mkCard Suit.diamonds Rank.six] }

/-- Four cards dealing (from the back) player 10♠ 9♥ against a dealer 7♦
upcard with a T♣ hole card. -/
def dealNineteen : List Card :=
  [mkCard Suit.clubs Rank.ten, mkCard Suit.hearts Rank.nine,
   mkCard Suit.diamonds Rank.seven, mkCard Suit.spades Rank.ten]

/-- Six cards dealing (from the back) player 8♠ 8♥ against a dealer 5♣
upcard with a 9♦ hole card, followed by the two split draws 8♣ and 8♦. -/
def dealEights : List Card :=
  [mkCard Suit.diamonds Rank.eight, mkCard Suit.clubs Rank.eight,
   mkCard Suit.diamonds Rank.nine, mkCard Suit.hearts Rank.eight,
   mkCard Suit.clubs Rank.five, mkCard Suit.spades Rank.eight]

/-- The state after betting $10 on an empty shoe that reshuffles into
`dealEights`: the player holds 8♠ 8♥ against a dealer 5♣. -/
def eightsDealt : SimGame := placeBet defaultRules 1000 dealEights (bettingState []) 10

/-- `eightsDealt` after the player splits: two hands 8♠ 8♣ and 8♥ 8♦, the
first one active. -/
def eightsSplit : SimGame := handleAction defaultRules 1000 [] eightsDealt Action.split

/-- A player-turn state in which a split has already happened this round:
the active hand is the pair 8♠ 8♣ with a $10 bet on a $10 bankroll. -/
def afterSplitState : SimGame :=
  { bettingState [] with
    gameState := SimState.playerTurn, bankroll := 10,
    playerHands :=
      [{ createHand 10 with
         cards := [mkCard Suit.spades Rank.eight, mkCard Suit.clubs Rank.eight] }],
    activeHandIndex := 0,
    roundFlags := ⟨false, false, true, false⟩ }

/-! ## Helper lemmas -/

theorem distTotal_zeroDist : distTotal zeroDist = 0 := by
  simp [distTotal, zeroDist]

theorem distTotal_addDist (a b : DealerDist) :
    distTotal (addDist a b) = distTotal a + distTotal b := by
  simp [distTotal, addDist]
  ring

theorem distTotal_scaleDist (p : ℚ) (d : DealerDist) :
    distTotal (scaleDist p d) = p * distTotal d := by
  simp [distTotal, scaleDist]
  ring

theorem distTotal_sumDists (l : List DealerDist) :
    distTotal (sumDists l) = (l.map distTotal).sum := by
  induction l with
  | nil => simp [sumDists, distTotal_zeroDist]
  | cons d t ih =>
    simp only [sumDists, List.foldr_cons, List.map_cons, List.sum_cons] at *
    rw [distTotal_addDist, ih]

theorem distTotal_standDist (v : ℕ) (first : Bool) (h17 : 17 ≤ v) (h21 : v ≤ 21) :
    distTotal (standDist v first) = 1 := by
  interval_cases v <;> cases first <;>
    simp [standDist, distTotal, zeroDist]

/-- Every distribution produced by the dealer solver has total mass 1: the
terminal cases put mass 1 on a single outcome, and a draw spreads mass over
the ten card values whose probabilities sum to 1. -/
theorem distTotal_getDealerOutcomeProbs (v : ℕ) (soft : Bool) (rules : GameRules)
    (first : Bool) : distTotal (getDealerOutcomeProbs v soft rules first) = 1 := by
  induction v, soft, rules, first using getDealerOutcomeProbs.induct with
  | case1 v soft rules first hbust =>
    rw [getDealerOutcomeProbs]
    simp [hbust, distTotal, zeroDist]
  | case2 v soft rules first hbust hhit ih =>
    rw [getDealerOutcomeProbs]
    simp only [hbust, if_false, hhit, if_true, if_neg, reduceIte]
    rw [distTotal_sumDists, List.map_map]
    have hmap : (cardValues.attach.map (distTotal ∘ fun c =>
        scaleDist (probCard c.1)
          (getDealerOutcomeProbs (hitNextVal v soft c.1) (hitNextSoft v soft c.1)
            rules false))) = cardValues.attach.map (fun c => probCard c.1) := by
      apply List.map_congr_left
      intro c _
      simp only [Function.comp_apply]
      rw [distTotal_scaleDist, ih c]
      ring
    rw [hmap]
    have : (cardValues.attach.map (fun c => probCard c.1)) = cardValues.map probCard :=
      List.attach_map_val cardValues probCard
    rw [this]
    simp [cardValues, probCard]
    norm_num
  | case3 v soft rules first hbust hstand =>
    rw [getDealerOutcomeProbs]
    rw [if_neg hbust, if_neg hstand]
    have h17 : 17 ≤ v := by
      by_contra hlt
      simp [dealerMustHit] at hstand
      omega
    exact distTotal_standDist v first h17 (by omega)

/-- Prepending the element stored at position `k` while overwriting that
position with `a` is a permutation of prepending `a`. -/
theorem cons_set_perm (xs : List Card) :
    ∀ (k : ℕ) (a b : Card), xs[k]? = some b → (b :: xs.set k a).Perm (a :: xs) := by
  induction xs with
  | nil =>
    intro k a b h
    simp at h
  | cons y ys ih =>
    intro k a b h
    cases k with
    | zero =>
      simp only [List.getElem?_cons_zero, Option.some.injEq] at h
      subst h
      exact List.Perm.swap a y ys
    | succ k =>
      simp only [List.getElem?_cons_succ] at h
      have step := ih k a b h
      simp only [List.set_cons_succ]
      exact (List.Perm.swap y b _).trans ((step.cons y).trans (List.Perm.swap a y ys))

/-- Writing `b` at position `i` and the old `l[i]` at position `j`, where `a`
is the old `l[i]` and `b` the old `l[j]`, permutes the list. -/
theorem set_set_perm (l : List Card) :
    ∀ (i j : ℕ) (a b : Card), l[i]? = some a → l[j]? = some b →
      ((l.set i b).set j a).Perm l := by
  induction l with
  | nil =>
    intro i j a b hi _
    simp at hi
  | cons x xs ih =>
    intro i j a b hi hj
    cases i with
    | zero =>
      simp only [List.getElem?_cons_zero, Option.some.injEq] at hi
      subst hi
      cases j with
      | zero =>
        simp only [List.getElem?_cons_zero, Option.some.injEq] at hj
        subst hj
        simp
      | succ j =>
        simp only [List.getElem?_cons_succ] at hj
        simpa using cons_set_perm xs j x b hj
    | succ i =>
      simp only [List.getElem?_cons_succ] at hi
      cases j with
      | zero =>
        simp only [List.getElem?_cons_zero, Option.some.injEq] at hj
        subst hj
        simpa using cons_set_perm xs i x a hi
      | succ j =>
        simp only [List.getElem?_cons_succ] at hj
        simp only [List.set_cons_succ]
        exact (ih i j a b hi hj).cons x

/-- One Fisher–Yates swap is a permutation, for any index pair. -/
theorem swapAt_perm (l : List Card) (i j : ℕ) : (swapAt l i j).Perm l := by
  rw [swapAt]
  cases hi : l[i]? with
  | none => exact List.Perm.refl _
  | some a =>
    cases hj : l[j]? with
    | none => exact List.Perm.refl _
    | some b => exact set_set_perm l i j a b hi hj

/-- The whole Fisher–Yates loop is a permutation. -/
theorem shuffleLoop_perm (rand : ℕ → ℚ) : ∀ (i : ℕ) (l : List Card),
    (shuffleLoop rand l i).Perm l := by
  intro i
  induction i with
  | zero => intro l; exact List.Perm.refl l
  | succ i ih =>
    intro l
    exact (ih _).trans (swapAt_perm l (i + 1) _)

/-! ## Claim theorems -/

/-- C10: for every outcome of the random number source (`Math.random()`
values in `[0, 1)`), `shuffleDeck` returns a permutation of its input — the
same cards, none duplicated or lost; being a pure function of the copied
array, it leaves the input list unmodified by construction. -/
theorem shuffleDeck_perm (rand : ℕ → ℚ) (deck : List Card)
    (hrand : ∀ i, 0 ≤ rand i ∧ rand i < 1) :
    (shuffleDeck rand deck).Perm deck := by
  rw [shuffleDeck]
  exact shuffleLoop_perm rand (deck.length - 1) deck

/-- Witness for C10 at the constant random source `1/2` and a three-card
deck. -/
theorem shuffleDeck_perm_witness :
    (shuffleDeck (fun _ => 1/2)
      [mkCard Suit.spades Rank.ace, mkCard Suit.hearts Rank.six,
       mkCard Suit.hearts Rank.two]).Perm
      [mkCard Suit.spades Rank.ace, mkCard Suit.hearts Rank.six,
       mkCard Suit.hearts Rank.two] :=
  shuffleDeck_perm (fun _ => 1/2) _ (fun _ => ⟨by norm_num, by norm_num⟩)

/-- C3: for every upcard value (in particular 2–11) and every rule set (both
H17 and S17), the seven outcome masses of the dealer-outcome distribution
computed by `getDealerOutcomeProbs` from the top-level call
`getDealerOutcomeProbs(dealerUpVal, dealerUpVal === 11, rules, true)` sum
exactly to 1 (in exact rational arithmetic, hence within 1e-9 of 1.0). -/
theorem dealerOutcomeProbs_mass_one (upVal : ℕ) (rules : GameRules) :
    distTotal (getDealerOutcomeProbs upVal (upVal == 11) rules true) = 1 :=
  distTotal_getDealerOutcomeProbs upVal (upVal == 11) rules true

/-- C2 (code bug): `isSoftHand` returns `false` on A♠6♥ and on A♠2♥, both of
which are soft hands (an Ace counted as 11), because the guard
`value + 10 > 21` is applied to the sum that already counts Aces as 11.
On A♠ T♥ 9♦ it returns `false` as the claim expects. -/
theorem isSoftHand_false_on_soft_hands :
    isSoftHand [mkCard Suit.spades Rank.ace, mkCard Suit.hearts Rank.six] = false ∧
    isSoftHand [mkCard Suit.spades Rank.ace, mkCard Suit.hearts Rank.two] = false ∧
    isSoftHand [mkCard Suit.spades Rank.ace, mkCard Suit.hearts Rank.ten,
      mkCard Suit.diamonds Rank.nine] = false := by
  constructor
  · rfl
  constructor
  · rfl
  · rfl

/-- C1 (code bug): under H17 rules the dealer STANDS on the soft 17 A♠6♦
instead of drawing: `playDealerTurn` leaves the two-card hand unchanged and
draws nothing from the deck, because `isSoftHand` misclassifies the hand as
hard (the H17 branch of the drawing loop is unreachable).  The below-17 /
hard-17 / 18+ behaviour of the rule is otherwise followed. -/
theorem playDealerTurn_stands_on_soft17_under_H17 :
    defaultRules.dealerHitSoft17 = true ∧
    (playDealerTurn [mkCard Suit.clubs Rank.five] [] dealerSoft17 defaultRules).2.cards =
      [mkCard Suit.spades Rank.ace, mkCard Suit.diamonds Rank.six] ∧
    (playDealerTurn [mkCard Suit.clubs Rank.five] [] dealerSoft17 defaultRules).1 =
      [mkCard Suit.clubs Rank.five] := by
  refine ⟨rfl, ?_, ?_⟩ <;>
    · rw [playDealerTurn, dealerLoop]
      norm_num [dealerSoft17, createHand, mkCard, rankValue, calculateHandValue,
        isSoftHand, rawValue, visibleCards, visibleAces, reduceAces, defaultRules]

/-- C9 counterexample: at running count −3 with 2 decks remaining the code
returns `Math.round(−1.5) = −1`, while both policies allowed by the claim
(round half away from zero, round half to even) give −2. -/
theorem calculateTrueCount_negative_half_mismatch :
    calculateTrueCount (-3) 2 = -1 ∧
    roundHalfAwayFromZero (((-3 : ℤ) : ℚ) / 2) = -2 ∧
    roundHalfToEven (((-3 : ℤ) : ℚ) / 2) = -2 ∧
    calculateTrueCount (-3) 2 ≠ roundHalfAwayFromZero (((-3 : ℤ) : ℚ) / 2) ∧
    calculateTrueCount (-3) 2 ≠ roundHalfToEven (((-3 : ℤ) : ℚ) / 2) := by
  have h1 : calculateTrueCount (-3) 2 = -1 := by
    rw [calculateTrueCount, if_neg (by norm_num), jsRound]
    norm_num
  have h2 : roundHalfAwayFromZero (((-3 : ℤ) : ℚ) / 2) = -2 := by
    rw [roundHalfAwayFromZero, if_neg (by norm_num)]
    rw [show -(((-3 : ℤ) : ℚ) / 2) + 1/2 = 2 by norm_num]
    rw [show ((2 : ℚ)) = ((2 : ℤ) : ℚ) by norm_num, Int.floor_intCast]
  have h3 : roundHalfToEven (((-3 : ℤ) : ℚ) / 2) = -2 := by
    rw [roundHalfToEven]
    have hf : ⌊((-3 : ℤ) : ℚ) / 2⌋ = -2 := by
      rw [Int.floor_eq_iff] <;> norm_num
    simp only [hf]
    norm_num
  refine ⟨h1, h2, h3, ?_, ?_⟩
  · rw [h1, h2]
    decide
  · rw [h1, h3]
    decide

/-- C9 amended: `calculateTrueCount` returns 0 when `decksRemaining ≤ 0`,
and otherwise rounds `runningCount / decksRemaining` to the nearest integer
with halves toward `+∞` (JS `Math.round`): the result is the unique integer
in `(q − 1/2, q + 1/2]`. -/
theorem calculateTrueCount_rounds_half_up (rc : ℤ) (decks : ℚ) :
    (decks ≤ 0 → calculateTrueCount rc decks = 0) ∧
    (0 < decks →
      (rc : ℚ) / decks - 1/2 < (calculateTrueCount rc decks : ℚ) ∧
      (calculateTrueCount rc decks : ℚ) ≤ (rc : ℚ) / decks + 1/2) := by
  constructor
  · intro h
    rw [calculateTrueCount, if_pos h]
  · intro h
    rw [calculateTrueCount, if_neg (not_le.mpr h), jsRound]
    constructor
    · have := Int.lt_floor_add_one ((rc : ℚ) / decks + 1/2)
      push_cast at this ⊢
      linarith
    · have := Int.floor_le ((rc : ℚ) / decks + 1/2)
      push_cast at this ⊢
      linarith

/-- Witness for C9's amended theorem at running count −3 and 2 decks. -/
theorem calculateTrueCount_rounds_half_up_witness :
    ((-3 : ℤ) : ℚ) / 2 - 1/2 < (calculateTrueCount (-3) 2 : ℚ) ∧
    (calculateTrueCount (-3) 2 : ℚ) ≤ ((-3 : ℤ) : ℚ) / 2 + 1/2 :=
  (calculateTrueCount_rounds_half_up (-3) 2).2 zero_lt_two

/-- C5: the canonical reference hands of `getBasicStrategyAction`: Surrender
for a hard two-card 16 against a dealer 10 when surrender is allowed; Double
for hard 11 against every dealer upcard; Split for a pair of 8s against
every dealer upcard; Hit for soft 18 against a dealer 9. -/
theorem basicStrategy_canonical_hands :
    (∀ (h : Hand) (d : Card) (rules : GameRules),
      rules.surrender ≠ SurrenderPolicy.none → h.cards.length = 2 →
      getHandType h.cards = HandType.hard → calculateHandValue h.cards = 16 →
      d.value = 10 → getBasicStrategyAction h d rules = Action.surrender) ∧
    (∀ (h : Hand) (d : Card) (rules : GameRules),
      getHandType h.cards = HandType.hard → calculateHandValue h.cards = 11 →
      getBasicStrategyAction h d rules = Action.double) ∧
    (∀ (h : Hand) (c1 c2 d : Card) (rules : GameRules),
      h.cards = [c1, c2] → c1.rank = Rank.eight → c2.rank = Rank.eight →
      getBasicStrategyAction h d rules = Action.split) ∧
    (∀ (h : Hand) (d : Card) (rules : GameRules),
      getHandType h.cards = HandType.soft → calculateHandValue h.cards = 18 →
      d.value = 9 → getBasicStrategyAction h d rules = Action.hit) := by
  refine ⟨?_, ?_, ?_, ?_⟩
  · intro h d rules hsur hlen htype htot hd
    simp [getBasicStrategyAction, hsur, hlen, htype, htot, hd]
  · intro h d rules htype htot
    simp [getBasicStrategyAction, htype, htot, hardDecision]
  · intro h c1 c2 d rules hcards h1 h2
    simp [getBasicStrategyAction, getHandType, cardAt, hcards, h1, h2, pairDecision]
  · intro h d rules htype htot hd
    simp [getBasicStrategyAction, htype, htot, hd, softDecision]

/-- Witness for C5 at 10♠6♥ vs T♥, 5♣6♣ vs A♠, 8♠8♥ vs T♥ and A♦7♦ vs 9♣
under the default rules. -/
theorem basicStrategy_canonical_hands_witness :
    getBasicStrategyAction
      { createHand 25 with
        cards := [mkCard Suit.spades Rank.ten, mkCard Suit.hearts Rank.six] }
      (mkCard Suit.hearts Rank.ten) defaultRules = Action.surrender ∧
    getBasicStrategyAction
      { createHand 25 with
        cards := [mkCard Suit.clubs Rank.five, mkCard Suit.clubs Rank.six] }
      (mkCard Suit.spades Rank.ace) defaultRules = Action.double ∧
    getBasicStrategyAction
      { createHand 25 with
        cards := [mkCard Suit.spades Rank.eight, mkCard Suit.hearts Rank.eight] }
      (mkCard Suit.hearts Rank.ten) defaultRules = Action.split ∧
    getBasicStrategyAction
      { createHand 25 with
        cards := [mkCard Suit.diamonds Rank.ace, mkCard Suit.diamonds Rank.seven] }
      (mkCard Suit.clubs Rank.nine) defaultRules = Action.hit := by
  refine ⟨?_, ?_, ?_, ?_⟩
  · exact basicStrategy_canonical_hands.1 _ _ _ (by decide) rfl (by decide) (by decide) rfl
  · exact basicStrategy_canonical_hands.2.1 _ _ _ (by decide) (by decide)
  · exact basicStrategy_canonical_hands.2.2.1 _ _ _ _ _ rfl rfl rfl
  · exact basicStrategy_canonical_hands.2.2.2 _ _ _ (by decide) (by decide) rfl

/-- C6 amended: `placeBet` rejects as a complete no-op exactly the bets that
exceed the current bankroll; below-minimum bets carry no validation (see the
counterexample). -/
theorem placeBet_rejects_over_bankroll (rules : GameRules) (thr : ℚ)
    (fresh : List Card) (g : SimGame) (bet : ℚ) (h : g.bankroll < bet) :
    placeBet rules thr fresh g bet = g := by
  rw [placeBet, if_pos h]

/-- Witness for C6's amended theorem: a $200 bet on a $100 bankroll is a
no-op. -/
theorem placeBet_rejects_over_bankroll_witness :
    placeBet defaultRules 1000 [] (bettingState []) 200 = bettingState [] :=
  placeBet_rejects_over_bankroll _ _ _ _ _ (by norm_num [bettingState])

/-- C6 counterexample: a $1 bet — below the rules' $5 `simMinBet` — is NOT
rejected: `placeBet` deducts it (bankroll 100 → 99), deals, and moves to the
player turn. -/
theorem placeBet_accepts_below_minimum_bet :
    1 < defaultRules.simMinBet ∧
    (bettingState []).gameState = SimState.betting ∧
    (bettingState []).bankroll = 100 ∧
    (placeBet defaultRules 1000 dealNineteen (bettingState []) 1).gameState =
      SimState.playerTurn ∧
    (placeBet defaultRules 1000 dealNineteen (bettingState []) 1).bankroll = 99 ∧
    (placeBet defaultRules 1000 dealNineteen (bettingState []) 1).playerHands ≠ [] := by
  refine ⟨by norm_num [defaultRules], rfl, rfl, ?_, ?_, ?_⟩ <;>
    norm_num [placeBet, bettingState, dealNineteen, popCardD, popCard, mkCard,
      rankValue, createHand, round2, jsRound, calculateHandValue, rawValue,
      visibleCards, visibleAces, reduceAces, revealHole, revealHoleAux,
      defaultRules, List.getLast?, List.dropLast,
      (show Rank.seven ≠ Rank.ace from by decide)]

/-- C7 amended: after a split (`splitUsed` set), `getAllowedActions` still
offers Split on an active two-card equal-rank hand whose bet is covered by
the bankroll — re-splitting is not disabled; the only action the round-wide
split flag disables is Surrender. -/
theorem allowedActions_after_split (rules : GameRules) (g : SimGame) (h : Hand)
    (c1 c2 : Card) (hget : g.playerHands[g.activeHandIndex]? = some h)
    (hcards : h.cards = [c1, c2]) (hrank : c1.rank = c2.rank)
    (hbet : h.bet ≤ g.bankroll) (h21 : calculateHandValue h.cards ≠ 21) :
    Action.split ∈ getAllowedActions rules g ∧
    (g.roundFlags.splitUsed = true → Action.surrender ∉ getAllowedActions rules g) := by
  rw [hcards] at h21
  constructor
  · simp [getAllowedActions, hget, hcards, h21, cardAt, hrank, hbet]
  · intro hs
    simp [getAllowedActions, hget, hcards, h21, cardAt, hrank, hbet, hs]

/-- Witness for C7's amended theorem on `afterSplitState`. -/
theorem allowedActions_after_split_witness :
    Action.split ∈ getAllowedActions defaultRules afterSplitState ∧
    Action.surrender ∉ getAllowedActions defaultRules afterSplitState := by
  have h := allowedActions_after_split defaultRules afterSplitState
    { createHand 10 with
      cards := [mkCard Suit.spades Rank.eight, mkCard Suit.clubs Rank.eight] }
    (mkCard Suit.spades Rank.eight) (mkCard Suit.clubs Rank.eight)
    rfl rfl rfl (le_refl 10) (by decide)
  exact ⟨h.1, h.2 rfl⟩

/-- C7 counterexample: a reachable state violating the claim — bet $10 from
a $100 bankroll on a shoe dealing 8♠ 8♥ against a dealer 5♣, then split.
The claim requires Split to be absent from the legal actions of every
post-split state, but the active hand 8♠ 8♣ is offered Split again. -/
theorem resplit_offered_in_reachable_state :
    eightsSplit.roundFlags.splitUsed = true ∧
    (eightsSplit.playerHands.get? eightsSplit.activeHandIndex).map
      (fun h => h.cards.map Card.rank) = some [Rank.eight, Rank.eight] ∧
    Action.split ∈ getAllowedActions defaultRules eightsSplit := by
  have hdealt : eightsDealt =
      { gameState := SimState.playerTurn, bankroll := 90, initialBankroll := some 100,
        peakBankroll := some 100,
        deck := [mkCard Suit.diamonds Rank.eight, mkCard Suit.clubs Rank.eight],
        roundStartBankroll := some 100, roundResult := Option.none, insuranceBet := 0,
        insuranceOffered := false, evenMoneyTaken := false,
        playerHands :=
          [{ createHand 10 with
             cards := [mkCard Suit.spades Rank.eight, mkCard Suit.hearts Rank.eight] }],
        activeHandIndex := 0,
        dealerHand :=
          { createHand 0 with
            cards := [mkCard Suit.clubs Rank.five,
              { mkCard Suit.diamonds Rank.nine with isHidden := true }] },
        roundFlags := ⟨false, false, false, false⟩ } := by
    norm_num [eightsDealt, placeBet, bettingState, dealEights, popCardD, popCard,
      mkCard, rankValue, createHand, round2, jsRound, calculateHandValue, rawValue,
      visibleCards, visibleAces, reduceAces, revealHole, revealHoleAux, defaultRules,
      List.getLast?, List.dropLast, (show Rank.five ≠ Rank.ace from by decide)]
  have hsplit : eightsSplit =
      { gameState := SimState.playerTurn, bankroll := 80, initialBankroll := some 100,
        peakBankroll := some 100, deck := [],
        roundStartBankroll := some 100, roundResult := Option.none, insuranceBet := 0,
        insuranceOffered := false, evenMoneyTaken := false,
        playerHands :=
          [{ createHand 10 with
             cards := [mkCard Suit.spades Rank.eight, mkCard Suit.clubs Rank.eight] },
           { createHand 10 with
             cards := [mkCard Suit.hearts Rank.eight, mkCard Suit.diamonds Rank.eight] }],
        activeHandIndex := 0,
        dealerHand :=
          { createHand 0 with
            cards := [mkCard Suit.clubs Rank.five,
              { mkCard Suit.diamonds Rank.nine with isHidden := true }] },
        roundFlags := ⟨false, false, true, false⟩ } := by
    rw [eightsSplit, hdealt]
    norm_num [handleAction, popCardD, popCard, mkCard, rankValue, createHand,
      cardAt, List.getLast?, List.dropLast]
  refine ⟨by rw [hsplit], by rw [hsplit]; rfl, ?_⟩
  rw [hsplit]
  norm_num [getAllowedActions, cardAt, calculateHandValue, rawValue, visibleCards,
    visibleAces, reduceAces, mkCard, rankValue, createHand]

/-- C8 counterexample: called with `isPair = true` but `pairRank = null`,
`calculateAllActionEVs` does not throw — it returns the ordinary result list
(here Stand/Hit/Double/Surrender, four entries) with the Split entry
silently skipped. -/
theorem calculateAllActionEVs_inconsistent_pair_returns :
    (calculateAllActionEVs 16 false true Option.none 10 defaultRules).length = 4 ∧
    Action.split ∉
      (calculateAllActionEVs 16 false true Option.none 10 defaultRules).map
        EVResult.action := by
  constructor
  · rw [calculateAllActionEVs, List.length_mergeSort]
    norm_num [defaultRules,
      (show SurrenderPolicy.late ≠ SurrenderPolicy.none from by decide)]
  · intro hmem
    simp only [calculateAllActionEVs, List.mem_map] at hmem
    obtain ⟨r, hr, hract⟩ := hmem
    rw [List.mem_mergeSort] at hr
    simp [defaultRules] at hr
    rcases hr with rfl | rfl | rfl | rfl <;> simp at hract

/-- C8 amended: with an inconsistent pair flag (`isPair` true with no
`pairRank`, or `isPair` false with one) `calculateAllActionEVs` does not
fail fast; it returns the EV list computed as for a non-pair hand, with no
Split entry. -/
theorem calculateAllActionEVs_skips_split (total : ℕ) (isSoft isPair : Bool)
    (pairRank : Option Rank) (up : ℕ) (rules : GameRules)
    (h : isPair = false ∨ pairRank = Option.none) :
    Action.split ∉
      (calculateAllActionEVs total isSoft isPair pairRank up rules).map
        EVResult.action := by
  intro hmem
  simp only [calculateAllActionEVs, List.mem_map] at hmem
  obtain ⟨r, hr, hract⟩ := hmem
  rw [List.mem_mergeSort] at hr
  by_cases hsur : rules.surrender = SurrenderPolicy.none
  all_goals rcases h with h | h
  all_goals subst h
  all_goals try cases pairRank
  all_goals simp [hsur] at hr
  all_goals rcases hr with rfl | rfl | rfl | rfl <;> simp at hract

/-- Witness for C8's amended theorem with `isPair = true`, `pairRank`
null. -/
theorem calculateAllActionEVs_skips_split_witness :
    Action.split ∉
      (calculateAllActionEVs 12 false true Option.none 6 defaultRules).map
        EVResult.action :=
  calculateAllActionEVs_skips_split 12 false true Option.none 6 defaultRules
    (Or.inr rfl)

/-- Folding `acc + f h` over a list starting from `a` is `a` plus the sum of
the images. -/
theorem foldl_add_map_sum (f : Hand → ℚ) : ∀ (l : List Hand) (a : ℚ),
    l.foldl (fun acc h => acc + f h) a = a + (l.map f).sum := by
  intro l
  induction l with
  | nil => intro a; simp
  | cons h t ih =>
    intro a
    simp only [List.foldl_cons, List.map_cons, List.sum_cons, ih]
    ring

/-- The per-hand payout branch of `resolveRound` computes exactly the return
the specification words in its `Resolving` step. -/
theorem handPayoutSrc_eq_claim (rules : GameRules) (em : Bool) (dHand h : Hand) :
    handPayoutSrc em rules.blackjackPayout (calculateHandValue dHand.cards)
      (decide (21 < calculateHandValue dHand.cards))
      (decide (calculateHandValue dHand.cards = 21) && decide (dHand.cards.length = 2)) h
    = claimHandReturn rules em dHand h := by
  rw [handPayoutSrc, claimHandReturn, handIsBJ]
  simp only [Bool.and_eq_true, decide_eq_true_eq, Bool.not_eq_true',
    Bool.and_eq_false_iff, decide_eq_false_iff_not]
  split_ifs
  all_goals try ring
  all_goals exfalso
  all_goals omega

/-- C4: the total payout of `resolveRound` is the sum over player hands of
the specification's per-hand returns plus `3 × insuranceBet` when insurance
was bought against a dealer natural — it is added to the bankroll, and
`roundResult` records the net delta (payout minus total bets).  In the
literal scenario [10,9] = 19 with a $25 bet against a dealer [10,7] = 17 on a
$75 post-bet bankroll the round pays $50: bankroll 125, delta +25. -/
theorem resolveRound_payout_correct :
    (∀ (rules : GameRules) (g : SimGame) (dHand : Hand) (hands : List Hand),
      (resolveRound rules g (some dHand) (some hands)).bankroll =
        g.bankroll +
          claimRoundPayout rules g.evenMoneyTaken g.insuranceBet dHand hands) ∧
    (∀ (rules : GameRules) (g : SimGame) (dHand : Hand) (hands : List Hand),
      (resolveRound rules g (some dHand) (some hands)).roundResult =
        some ⟨claimRoundPayout rules g.evenMoneyTaken g.insuranceBet dHand hands -
            (hands.map Hand.bet).sum,
          g.bankroll +
            claimRoundPayout rules g.evenMoneyTaken g.insuranceBet dHand hands⟩) ∧
    (resolveRound defaultRules resolveExampleState (some dealerSeventeen)
      (some [handNineteen])).bankroll = 125 ∧
    (resolveRound defaultRules resolveExampleState (some dealerSeventeen)
      (some [handNineteen])).roundResult = some ⟨25, 125⟩ := by
  refine ⟨?_, ?_, ?_, ?_⟩
  · intro rules g dHand hands
    simp only [resolveRound, Option.getD_some, claimRoundPayout]
    rw [foldl_add_map_sum]
    simp only [Bool.and_eq_true, decide_eq_true_eq]
    rw [show handPayoutSrc g.evenMoneyTaken rules.blackjackPayout
          (calculateHandValue dHand.cards)
          (decide (21 < calculateHandValue dHand.cards))
          (decide (calculateHandValue dHand.cards = 21) &&
            decide (dHand.cards.length = 2)) =
        claimHandReturn rules g.evenMoneyTaken dHand from
      funext (fun h => handPayoutSrc_eq_claim rules g.evenMoneyTaken dHand h)]
    ring
  · intro rules g dHand hands
    simp only [resolveRound, Option.getD_some, claimRoundPayout, Option.some.injEq,
      RoundResult.mk.injEq]
    rw [foldl_add_map_sum, foldl_add_map_sum]
    simp only [Bool.and_eq_true, decide_eq_true_eq]
    rw [show handPayoutSrc g.evenMoneyTaken rules.blackjackPayout
          (calculateHandValue dHand.cards)
          (decide (21 < calculateHandValue dHand.cards))
          (decide (calculateHandValue dHand.cards = 21) &&
            decide (dHand.cards.length = 2)) =
        claimHandReturn rules g.evenMoneyTaken dHand from
      funext (fun h => handPayoutSrc_eq_claim rules g.evenMoneyTaken dHand h)]
    constructor <;> ring
  · norm_num [resolveRound, resolveExampleState, bettingState, dealerSeventeen,
      handNineteen, handPayoutSrc, handIsBJ, createHand, mkCard, rankValue,
      calculateHandValue, rawValue, visibleCards, visibleAces, reduceAces,
      defaultRules]
  · norm_num [resolveRound, resolveExampleState, bettingState, dealerSeventeen,
      handNineteen, handPayoutSrc, handIsBJ, createHand, mkCard, rankValue,
      calculateHandValue, rawValue, visibleCards, visibleAces, reduceAces,
      defaultRules]

end BJ
